import Mathlib

/-!
A shallow embedding of the Sync-stream backend (`src/backend/src/index.ts`,
the Express + socket.io server): an in-memory registry of rooms keyed by
room identifier, per-socket data, and the four socket event handlers
(`join-room`, `action`, `signal`, `disconnect`).

JavaScript modelling conventions:
* a possibly-`undefined` string field is `Option String` (`none` = `undefined`);
* `rooms[roomId]` stringifies the key, so `undefined` indexes the literal
  key `"undefined"` (`keyOf`);
* JS objects are insertion-ordered association lists with unique keys:
  assignment replaces in place or appends (`setA`), `delete` removes
  (`eraseA`);
* truthiness of a string (`if (!roomId)`) is `truthy`: `undefined` and the
  empty string are falsy;
* socket.io level room membership (`socket.join`, `io.to`, `socket.to`) is
  the `joinedRooms` list of each connected socket; on disconnect the socket
  has already left all its rooms and the namespace map before the
  `disconnect` handler runs;
* numeric `seconds` payloads are `Option Nat` (`none` = missing field).
-/

namespace SyncStream

/-- The per-member record stored in `rooms[roomId].users[socket.id]`:
`{ userId, peerId }`. -/
structure UserInfo where
  userId : Option String
  peerId : Option String
deriving DecidableEq, Repr

/-- A room object as created in the `join-room` handler:
`{ users: {}, mediaUrl: null, isPlaying: false, currentTime: 0 }`,
with `users` an insertion-ordered map from socket id. -/
structure Room where
  users : List (Nat × UserInfo)
  mediaUrl : Option String
  isPlaying : Bool
  currentTime : Option Nat
deriving DecidableEq, Repr

/-- `socket.data` as written by the `join-room` handler. -/
structure SocketData where
  roomId : Option String
  userId : Option String
  peerId : Option String
deriving DecidableEq, Repr

/-- One connected socket: its `socket.data` and the socket.io rooms it has
joined via `socket.join`. -/
structure SocketState where
  sdata : SocketData
  joinedRooms : List (Option String)
deriving DecidableEq, Repr

/-- The whole server: the `rooms` registry object and the namespace's
connected sockets (`io.sockets.sockets`), both insertion ordered. -/
structure ServerState where
  rooms : List (String × Room)
  sockets : List (Nat × SocketState)
deriving DecidableEq, Repr

/-- First-match association lookup (JS property read / Map get). -/
def lookupA {κ α : Type} [DecidableEq κ] : List (κ × α) → κ → Option α
  | [], _ => none
  | (k, v) :: rest, k' => if k' = k then some v else lookupA rest k'

/-- Replace the value at the first occurrence of a key. -/
def replaceA {κ α : Type} [DecidableEq κ] : List (κ × α) → κ → α → List (κ × α)
  | [], _, _ => []
  | (k₁, v₁) :: rest, k, v =>
    if k₁ = k then (k, v) :: rest else (k₁, v₁) :: replaceA rest k v

/-- JS object assignment `obj[k] = v`: replace in place when the key is
present, otherwise append (keys of a JS object are unique, so replacing
the first occurrence is exact). -/
def setA {κ α : Type} [DecidableEq κ] (l : List (κ × α)) (k : κ) (v : α) :
    List (κ × α) :=
  if (lookupA l k).isSome then replaceA l k v else l ++ [(k, v)]

/-- JS `delete obj[k]`. -/
def eraseA {κ α : Type} [DecidableEq κ] (l : List (κ × α)) (k : κ) :
    List (κ × α) :=
  l.filter (fun p => !(p.1 = k))

/-- JS property-key stringification: `rooms[undefined]` reads the key
`"undefined"`. -/
def keyOf : Option String → String
  | none => "undefined"
  | some s => s

/-- JS truthiness of a string-or-undefined value (`undefined` and `""` are
falsy). -/
def truthy : Option String → Bool
  | none => false
  | some s => !(s = "")

/-- Messages emitted by the server, tagged with their event name. -/
inductive OutMsg where
  | userJoined (userId peerId : Option String)
  | roomState (r : Room)
  | existingUsers (l : List UserInfo)
  | userLeft (userId : Option String)
  | sync (r : Room)
  | signal (fromPeerId : Option String) (payload : String)
deriving DecidableEq, Repr

/-- Socket ids currently subscribed to a socket.io room: the recipients of
`io.to(rid).emit(...)`. -/
def ioRoomMembers (st : ServerState) (rid : Option String) : List Nat :=
  (st.sockets.filter (fun p => p.2.joinedRooms.any (fun r => r = rid))).map
    (fun p => p.1)

/-- Recipients of `socket.to(rid).emit(...)`: the room's subscribers minus
the sender. -/
def socketToMembers (st : ServerState) (rid : Option String) (sender : Nat) :
    List Nat :=
  (ioRoomMembers st rid).filter (fun s => !(s = sender))

/-- A fresh room as initialized by the `join-room` handler. -/
def freshRoom : Room :=
  { users := [], mediaUrl := none, isPlaying := false, currentTime := some 0 }

/-- A new connection: the socket is added to the namespace with empty
`socket.data` and no joined rooms. -/
def handleConnect (st : ServerState) (sid : Nat) :
    ServerState × List (Nat × OutMsg) :=
  ({ st with
      sockets := st.sockets ++
        [(sid, { sdata := { roomId := none, userId := none, peerId := none },
                 joinedRooms := [] })] },
   [])

/-- The `join-room` handler (`index.ts` lines 118-146): `socket.join`,
store `socket.data`, initialize the room if absent, add the user, emit
`user-joined` to the others, then `room-state` and `existing-users` to the
joiner (both computed after the member was added). -/
def handleJoin (st : ServerState) (sid : Nat)
    (rid uid pid : Option String) : ServerState × List (Nat × OutMsg) :=
  match lookupA st.sockets sid with
  | none => (st, [])
  | some sk =>
    let sk' : SocketState :=
      { sdata := { roomId := rid, userId := uid, peerId := pid },
        joinedRooms :=
          if sk.joinedRooms.any (fun r => r = rid) then sk.joinedRooms
          else sk.joinedRooms ++ [rid] }
    let key := keyOf rid
    let r0 := (lookupA st.rooms key).getD freshRoom
    let r1 := { r0 with users := setA r0.users sid { userId := uid, peerId := pid } }
    let st' : ServerState :=
      { rooms := setA st.rooms key r1, sockets := setA st.sockets sid sk' }
    (st',
      (socketToMembers st' rid sid).map (fun s => (s, OutMsg.userJoined uid pid))
        ++ [(sid, OutMsg.roomState r1),
            (sid, OutMsg.existingUsers (r1.users.map (fun p => p.2)))])

/-- The `switch (type)` of the `action` handler (`index.ts` lines 156-173):
`play`, `pause`, `seek`, `media`; an unrecognized kind changes nothing. -/
def applyAction (r : Room) (ty : Option String) (seconds : Option Nat)
    (url : Option String) : Room :=
  if ty = some "play" then { r with isPlaying := true, currentTime := seconds }
  else if ty = some "pause" then
    { r with isPlaying := false, currentTime := seconds }
  else if ty = some "seek" then { r with currentTime := seconds }
  else if ty = some "media" then
    { r with mediaUrl := url, isPlaying := true, currentTime := some 0 }
  else r

/-- The `action` handler (`index.ts` lines 149-177): bail out when
`socket.data.roomId` is falsy or the room is absent; otherwise update the
room state and emit `sync` with the whole room object to `io.to(roomId)`. -/
def handleAction (st : ServerState) (sid : Nat) (ty : Option String)
    (seconds : Option Nat) (url : Option String) :
    ServerState × List (Nat × OutMsg) :=
  match lookupA st.sockets sid with
  | none => (st, [])
  | some sk =>
    let rid := sk.sdata.roomId
    if truthy rid then
      match lookupA st.rooms (keyOf rid) with
      | none => (st, [])
      | some r =>
        let r' := applyAction r ty seconds url
        let st' : ServerState :=
          { rooms := setA st.rooms (keyOf rid) r', sockets := st.sockets }
        (st', (ioRoomMembers st' rid).map (fun s => (s, OutMsg.sync r')))
    else (st, [])

/-- `findSocketByPeerId` (`index.ts` lines 208-213): linear scan over all
connected sockets, first one whose `socket.data.peerId === peerId`. -/
def findSocketByPeerId (sockets : List (Nat × SocketState))
    (pid : Option String) : Option Nat :=
  (sockets.find? (fun p => p.2.sdata.peerId = pid)).map (fun p => p.1)

/-- The `signal` handler (`index.ts` lines 180-189): forward
`{ fromPeerId, signal }` to the socket owning `targetPeerId`, or do
nothing at all when none is found. -/
def handleSignal (st : ServerState) (sid : Nat) (targetPeerId : Option String)
    (payload : String) : ServerState × List (Nat × OutMsg) :=
  match lookupA st.sockets sid with
  | none => (st, [])
  | some sk =>
    match findSocketByPeerId st.sockets targetPeerId with
    | some t => (st, [(t, OutMsg.signal sk.sdata.peerId payload)])
    | none => (st, [])

/-- The `disconnect` handler (`index.ts` lines 192-204). socket.io has
already removed the socket from the namespace and from all its rooms when
the handler runs; then, when `socket.data.roomId` is truthy and the room
exists, the member entry is deleted, `user-left` is emitted to
`io.to(roomId)`, and the room is deleted when its membership became
empty. -/
def handleDisconnect (st : ServerState) (sid : Nat) :
    ServerState × List (Nat × OutMsg) :=
  match lookupA st.sockets sid with
  | none => (st, [])
  | some sk =>
    let stc : ServerState :=
      { rooms := st.rooms, sockets := st.sockets.filter (fun p => !(p.1 = sid)) }
    let rid := sk.sdata.roomId
    if truthy rid then
      match lookupA stc.rooms (keyOf rid) with
      | none => (stc, [])
      | some r =>
        let r' := { r with users := eraseA r.users sid }
        let msgs := (ioRoomMembers stc rid).map
          (fun s => (s, OutMsg.userLeft sk.sdata.userId))
        let rooms' :=
          if r'.users.isEmpty then eraseA stc.rooms (keyOf rid)
          else setA stc.rooms (keyOf rid) r'
        ({ rooms := rooms', sockets := stc.sockets }, msgs)
    else (stc, [])

/-- The inbound events the server reacts to. -/
inductive Event where
  | connect (sid : Nat)
  | joinRoom (sid : Nat) (roomId userId peerId : Option String)
  | action (sid : Nat) (ty : Option String) (seconds : Option Nat)
      (url : Option String)
  | signal (sid : Nat) (targetPeerId : Option String) (payload : String)
  | disconnect (sid : Nat)
deriving DecidableEq, Repr

/-- One step of the server: dispatch an event to its handler. A `connect`
with an already-used socket id and any message from a socket that is not
connected are impossible in the real system and are no-ops here. -/
def step (st : ServerState) : Event → ServerState × List (Nat × OutMsg)
  | Event.connect sid =>
    if (lookupA st.sockets sid).isSome then (st, []) else handleConnect st sid
  | Event.joinRoom sid r u p => handleJoin st sid r u p
  | Event.action sid t s u => handleAction st sid t s u
  | Event.signal sid t pl => handleSignal st sid t pl
  | Event.disconnect sid => handleDisconnect st sid

/-- Run a sequence of events, collecting all emitted messages in order. -/
def runTrace : ServerState → List Event → ServerState × List (Nat × OutMsg)
  | st, [] => (st, [])
  | st, e :: rest =>
    let p := step st e
    let q := runTrace p.1 rest
    (q.1, p.2 ++ q.2)

/-- The server starts with no rooms and no connected sockets. -/
def initState : ServerState := { rooms := [], sockets := [] }

/-- The state after running a trace from the fresh server. -/
def finalState (evs : List Event) : ServerState :=
  (runTrace initState evs).1

/-- All `existing-users` payloads delivered to socket `sid` in an output
stream. -/
def existingUsersTo (out : List (Nat × OutMsg)) (sid : Nat) :
    List (List UserInfo) :=
  out.filterMap (fun p =>
    if p.1 = sid then
      match p.2 with
      | OutMsg.existingUsers l => some l
      | _ => none
    else none)

/-! ### Association-list lemmas -/

theorem lookupA_append {κ α : Type} [DecidableEq κ] (l₁ l₂ : List (κ × α))
    (k : κ) :
    lookupA (l₁ ++ l₂) k =
      if (lookupA l₁ k).isSome then lookupA l₁ k else lookupA l₂ k := by
  induction l₁ with
  | nil => simp [lookupA]
  | cons p rest ih =>
    obtain ⟨k₁, v₁⟩ := p
    by_cases h : k = k₁ <;> simp [lookupA, h, ih]

theorem lookupA_replaceA_self {κ α : Type} [DecidableEq κ]
    {l : List (κ × α)} {k : κ} (v : α) (h : (lookupA l k).isSome) :
    lookupA (replaceA l k v) k = some v := by
  induction l with
  | nil => simp [lookupA] at h
  | cons p rest ih =>
    obtain ⟨k₁, v₁⟩ := p
    by_cases hk : k₁ = k
    · simp [replaceA, hk, lookupA]
    · have hk' : ¬ k = k₁ := fun hh => hk hh.symm
      simp [lookupA, hk'] at h
      simp [replaceA, hk, lookupA, hk', ih h]

theorem lookupA_replaceA_ne {κ α : Type} [DecidableEq κ]
    (l : List (κ × α)) (k k' : κ) (v : α) (h : ¬ k' = k) :
    lookupA (replaceA l k v) k' = lookupA l k' := by
  induction l with
  | nil => simp [replaceA]
  | cons p rest ih =>
    obtain ⟨k₁, v₁⟩ := p
    by_cases hk : k₁ = k
    · subst hk
      simp [replaceA, lookupA, h, ih]
    · simp [replaceA, hk, lookupA, ih]

theorem lookupA_setA_self {κ α : Type} [DecidableEq κ]
    (l : List (κ × α)) (k : κ) (v : α) :
    lookupA (setA l k v) k = some v := by
  unfold setA
  by_cases h : (lookupA l k).isSome
  · simp [h, lookupA_replaceA_self v h]
  · simp [h, lookupA_append]
    simp at h
    simp [h, lookupA]

theorem lookupA_setA_ne {κ α : Type} [DecidableEq κ]
    (l : List (κ × α)) (k k' : κ) (v : α) (h : ¬ k' = k) :
    lookupA (setA l k v) k' = lookupA l k' := by
  unfold setA
  by_cases hs : (lookupA l k).isSome
  · simp [hs, lookupA_replaceA_ne l k k' v h]
  · simp [hs, lookupA_append]
    intro hnone
    simp [lookupA, h, hnone]

theorem lookupA_eraseA_self {κ α : Type} [DecidableEq κ]
    (l : List (κ × α)) (k : κ) :
    lookupA (eraseA l k) k = none := by
  induction l with
  | nil => simp [eraseA, lookupA]
  | cons p rest ih =>
    obtain ⟨k₁, v₁⟩ := p
    by_cases hk : k₁ = k
    · simpa [eraseA, hk] using ih
    · have hk' : ¬ k = k₁ := fun hh => hk hh.symm
      simpa [eraseA, hk, lookupA, hk'] using ih

theorem lookupA_eraseA_ne {κ α : Type} [DecidableEq κ]
    (l : List (κ × α)) (k k' : κ) (h : ¬ k' = k) :
    lookupA (eraseA l k) k' = lookupA l k' := by
  induction l with
  | nil => simp [eraseA]
  | cons p rest ih =>
    obtain ⟨k₁, v₁⟩ := p
    by_cases hk : k₁ = k
    · subst hk
      simp only [eraseA, lookupA] at ih ⊢
      simp [h, ih]
    · by_cases hk2 : k' = k₁ <;>
        simp only [eraseA, lookupA] at ih ⊢ <;> simp [hk, hk2, lookupA, ih]

theorem setA_ne_nil {κ α : Type} [DecidableEq κ]
    (l : List (κ × α)) (k : κ) (v : α) : setA l k v ≠ [] := by
  unfold setA
  by_cases h : (lookupA l k).isSome
  · simp [h]
    cases l with
    | nil => simp [lookupA] at h
    | cons p rest =>
      obtain ⟨k₁, v₁⟩ := p
      by_cases hk : k₁ = k <;> simp [replaceA, hk]
  · simp [h]

theorem lookupA_range_map {α : Type} (n k : Nat) (f : Nat → α) :
    lookupA ((List.range n).map (fun i => (i, f i))) k
      = if k < n then some (f k) else none := by
  induction n with
  | zero => simp [lookupA]
  | succ n ih =>
    rw [List.range_succ, List.map_append, lookupA_append, ih]
    by_cases h1 : k < n
    · simp [h1, Nat.lt_succ_of_lt h1]
    · by_cases h2 : k = n
      · subst h2
        simp [h1, lookupA, Nat.lt_succ_self]
      · have : ¬ k < n + 1 := by omega
        simp [h1, h2, this, lookupA]

theorem applyAction_users (r : Room) (ty : Option String)
    (seconds : Option Nat) (url : Option String) :
    (applyAction r ty seconds url).users = r.users := by
  unfold applyAction
  split <;> try rfl
  split <;> try rfl
  split <;> try rfl
  split <;> rfl

theorem applyAction_unknown (r : Room) (ty : Option String)
    (seconds : Option Nat) (url : Option String)
    (h1 : ¬ ty = some "play") (h2 : ¬ ty = some "pause")
    (h3 : ¬ ty = some "seek") (h4 : ¬ ty = some "media") :
    applyAction r ty seconds url = r := by
  simp [applyAction, h1, h2, h3, h4]

/-! ### C5: action semantics -/

/-- C5: semantics of the four recognized action kinds. `play` sets
`isPlaying := true` and `currentTime := seconds`; `pause` sets
`isPlaying := false` and `currentTime := seconds`; `seek` sets only
`currentTime := seconds` (the playing flag and everything else is kept);
`media` (the spec's `set-media`, whose payload reference is the `url`
field) sets `mediaUrl := url`, `isPlaying := true` and `currentTime := 0`
regardless of the room's prior playback state. -/
theorem c5_action_kind_semantics (r : Room) (seconds : Option Nat)
    (url : Option String) :
    applyAction r (some "play") seconds url
        = { r with isPlaying := true, currentTime := seconds } ∧
    applyAction r (some "pause") seconds url
        = { r with isPlaying := false, currentTime := seconds } ∧
    applyAction r (some "seek") seconds url
        = { users := r.users, mediaUrl := r.mediaUrl,
            isPlaying := r.isPlaying, currentTime := seconds } ∧
    applyAction r (some "media") seconds url
        = { users := r.users, mediaUrl := url,
            isPlaying := true, currentTime := some 0 } := by
  refine ⟨rfl, ?_, ?_, ?_⟩ <;> simp [applyAction]

/-! ### C7: seek idempotence -/

/-- C7: applying `seek{seconds: 42}` to a room yields `position = 42`, and
applying it a second time changes nothing at all: the result after the
second application is identical to the result after the first, so repeated
seeks to the same value never accumulate. -/
theorem c7_seek_idempotent (r : Room) :
    (applyAction r (some "seek") (some 42) none).currentTime = some 42 ∧
    applyAction (applyAction r (some "seek") (some 42) none)
        (some "seek") (some 42) none
      = applyAction r (some "seek") (some 42) none := by
  constructor
  · simp [applyAction]
  · simp [applyAction]

/-! ### C8: signal relay -/

/-- C8: the `signal` handler never changes the server state. When the
linear scan finds a socket owning `targetPeerId`, exactly one message
`{fromPeerId, payload}` is delivered, to a session that owns the target
peer identifier; whenever some connected session owns the target peer
identifier the scan succeeds; and when the scan finds none, nothing at all
is delivered — in particular no error goes back to the sender. -/
theorem c8_signal_relay (st : ServerState) (sid : Nat) (sk : SocketState)
    (tpid : Option String) (payload : String)
    (hsk : lookupA st.sockets sid = some sk) :
    (step st (Event.signal sid tpid payload)).1 = st ∧
    (∀ t, findSocketByPeerId st.sockets tpid = some t →
      (step st (Event.signal sid tpid payload)).2
          = [(t, OutMsg.signal sk.sdata.peerId payload)] ∧
      ∃ tsk, (t, tsk) ∈ st.sockets ∧ tsk.sdata.peerId = tpid) ∧
    ((∃ p ∈ st.sockets, p.2.sdata.peerId = tpid) →
      (findSocketByPeerId st.sockets tpid).isSome) ∧
    (findSocketByPeerId st.sockets tpid = none →
      (step st (Event.signal sid tpid payload)).2 = []) := by
  refine ⟨?_, ?_, ?_, ?_⟩
  · cases hfind : findSocketByPeerId st.sockets tpid with
    | none => simp [step, handleSignal, hsk, hfind]
    | some t => simp [step, handleSignal, hsk, hfind]
  · intro t hfind
    constructor
    · simp [step, handleSignal, hsk, hfind]
    · unfold findSocketByPeerId at hfind
      cases hf : st.sockets.find? (fun p => p.2.sdata.peerId = tpid) with
      | none => simp [hf] at hfind
      | some q =>
        simp [hf] at hfind
        refine ⟨q.2, ?_, ?_⟩
        · rw [← hfind]
          exact List.mem_of_find?_eq_some hf
        · have := List.find?_some hf
          simpa using this
  · intro hex
    obtain ⟨p, hp, hpid⟩ := hex
    cases hf : st.sockets.find? (fun p => p.2.sdata.peerId = tpid) with
    | none =>
      have hnone := List.find?_eq_none.mp hf p hp
      simp [hpid] at hnone
    | some q => simp [findSocketByPeerId, hf]
  · intro hfind
    simp [step, handleSignal, hsk, hfind]

/-- C8 witness: a fresh socket 1 signals to peer `"pa"` owned by socket 0
(delivered once, and the state is untouched), and to `"ghost"` owned by
nobody (nothing delivered). -/
theorem c8_signal_relay_witness :
    (step (finalState [Event.connect 0,
        Event.joinRoom 0 (some "r") (some "a") (some "pa"), Event.connect 1])
      (Event.signal 1 (some "pa") "sdp")).2
      = [(0, OutMsg.signal none "sdp")] ∧
    (step (finalState [Event.connect 0,
        Event.joinRoom 0 (some "r") (some "a") (some "pa"), Event.connect 1])
      (Event.signal 1 (some "ghost") "sdp")).2 = [] := by
  constructor
  · exact (c8_signal_relay
      (finalState [Event.connect 0,
        Event.joinRoom 0 (some "r") (some "a") (some "pa"), Event.connect 1])
      1 { sdata := { roomId := none, userId := none, peerId := none },
          joinedRooms := [] }
      (some "pa") "sdp" (by decide)).2.1 0 (by decide) |>.1
  · exact (c8_signal_relay
      (finalState [Event.connect 0,
        Event.joinRoom 0 (some "r") (some "a") (some "pa"), Event.connect 1])
      1 { sdata := { roomId := none, userId := none, peerId := none },
          joinedRooms := [] }
      (some "ghost") "sdp" (by decide)).2.2.2 (by decide)

/-! ### C9: unrecognized action kinds -/

/-- C9: an `action` whose kind matches none of `play`, `pause`, `seek`,
`media`, sent by a member of an existing room, leaves every room's state
and the socket table unchanged, yet a `sync` carrying the unchanged room
state is still broadcast to every subscriber of the room. -/
theorem c9_unknown_action_sync (st : ServerState) (sid : Nat)
    (sk : SocketState) (rid : String) (r : Room) (ty : Option String)
    (seconds : Option Nat) (url : Option String)
    (hsk : lookupA st.sockets sid = some sk)
    (hrid : sk.sdata.roomId = some rid) (hne : ¬ rid = "")
    (hroom : lookupA st.rooms rid = some r)
    (hty1 : ¬ ty = some "play") (hty2 : ¬ ty = some "pause")
    (hty3 : ¬ ty = some "seek") (hty4 : ¬ ty = some "media") :
    (∀ k, lookupA (step st (Event.action sid ty seconds url)).1.rooms k
        = lookupA st.rooms k) ∧
    (step st (Event.action sid ty seconds url)).1.sockets = st.sockets ∧
    (step st (Event.action sid ty seconds url)).2
      = (ioRoomMembers st (some rid)).map (fun s => (s, OutMsg.sync r)) := by
  have happ : applyAction r ty seconds url = r :=
    applyAction_unknown r ty seconds url hty1 hty2 hty3 hty4
  have htru : truthy (some rid) = true := by simp [truthy, hne]
  have hkey : keyOf (some rid) = rid := rfl
  refine ⟨?_, ?_, ?_⟩
  · intro k
    by_cases hk : k = rid
    · subst hk
      simp [step, handleAction, hsk, hrid, htru, hkey, hroom, happ,
        lookupA_setA_self]
    · simp [step, handleAction, hsk, hrid, htru, hkey, hroom, happ,
        lookupA_setA_ne _ _ _ _ hk]
  · simp [step, handleAction, hsk, hrid, htru, hkey, hroom]
  · simp [step, handleAction, hsk, hrid, htru, hkey, hroom, happ,
      ioRoomMembers]

/-- C9 witness: socket 0, in room `"r"`, sends an action of unrecognized
kind `"stop"`; the registry still maps `"r"` to the untouched room and the
unchanged state is synced back to socket 0. -/
theorem c9_unknown_action_sync_witness :
    lookupA (step (finalState [Event.connect 0,
        Event.joinRoom 0 (some "r") (some "a") (some "pa")])
      (Event.action 0 (some "stop") (some 7) none)).1.rooms "r"
      = lookupA (finalState [Event.connect 0,
          Event.joinRoom 0 (some "r") (some "a") (some "pa")]).rooms "r" ∧
    (step (finalState [Event.connect 0,
        Event.joinRoom 0 (some "r") (some "a") (some "pa")])
      (Event.action 0 (some "stop") (some 7) none)).2
      = [(0, OutMsg.sync
          { users := [(0, { userId := some "a", peerId := some "pa" })],
            mediaUrl := none, isPlaying := false, currentTime := some 0 })] := by
  have h := c9_unknown_action_sync
    (finalState [Event.connect 0,
      Event.joinRoom 0 (some "r") (some "a") (some "pa")])
    0
    { sdata := { roomId := some "r", userId := some "a", peerId := some "pa" },
      joinedRooms := [some "r"] }
    "r"
    { users := [(0, { userId := some "a", peerId := some "pa" })],
      mediaUrl := none, isPlaying := false, currentTime := some 0 }
    (some "stop") (some 7) none
    (by decide) (by decide) (by decide) (by decide)
    (by decide) (by decide) (by decide) (by decide)
  refine ⟨h.1 "r", ?_⟩
  rw [h.2.2]
  decide

/-! ### C10: disconnect frame -/

/-- C10: the `disconnect` handler touches at most the room named by the
session's most recently stored `socket.data.roomId`. When that field is
falsy (in particular for a session that never joined any room) the
registry is completely unchanged and nothing is emitted; when it is
`some rid`, every registry key other than `rid` keeps its exact previous
value (so a membership entry left behind in an earlier room survives), and
every emitted message is a `user-left` addressed to a subscriber of room
`rid`. -/
theorem c10_disconnect_frame (st : ServerState) (sid : Nat)
    (sk : SocketState) (hsk : lookupA st.sockets sid = some sk) :
    (truthy sk.sdata.roomId = false →
      (step st (Event.disconnect sid)).1.rooms = st.rooms ∧
      (step st (Event.disconnect sid)).2 = []) ∧
    (∀ rid : String, sk.sdata.roomId = some rid →
      (∀ k, ¬ k = rid →
        lookupA (step st (Event.disconnect sid)).1.rooms k
          = lookupA st.rooms k) ∧
      (∀ m ∈ (step st (Event.disconnect sid)).2,
        m.2 = OutMsg.userLeft sk.sdata.userId ∧
        m.1 ∈ ioRoomMembers
          { rooms := st.rooms,
            sockets := st.sockets.filter (fun p => !(p.1 = sid)) }
          (some rid))) := by
  constructor
  · intro hfalsy
    constructor <;> simp [step, handleDisconnect, hsk, hfalsy]
  · intro rid hrid
    by_cases hne : rid = ""
    · subst hne
      have hfalsy : truthy sk.sdata.roomId = false := by simp [truthy, hrid]
      constructor
      · intro k _
        simp [step, handleDisconnect, hsk, hfalsy]
      · intro m hm
        simp [step, handleDisconnect, hsk, hfalsy] at hm
    · have htru : truthy sk.sdata.roomId = true := by simp [truthy, hrid, hne]
      have hkey : keyOf sk.sdata.roomId = rid := by simp [keyOf, hrid]
      cases hroom : lookupA st.rooms rid with
      | none =>
        constructor
        · intro k _
          simp [step, handleDisconnect, hsk, htru, hkey, hroom]
        · intro m hm
          simp [step, handleDisconnect, hsk, htru, hkey, hroom] at hm
      | some r =>
        constructor
        · intro k hk
          by_cases hemp : ({ r with users := eraseA r.users sid } :
              Room).users.isEmpty
          · simp [step, handleDisconnect, hsk, htru, hkey, hroom, hemp,
              lookupA_eraseA_ne _ _ _ hk]
          · simp [step, handleDisconnect, hsk, htru, hkey, hroom, hemp,
              lookupA_setA_ne _ _ _ _ hk]
        · intro m hm
          by_cases hemp : ({ r with users := eraseA r.users sid } :
              Room).users.isEmpty <;>
          · simp [step, handleDisconnect, hsk, htru, hkey, hroom, hemp]
              at hm
            obtain ⟨s, hs, hm⟩ := hm
            subst hm
            simpa [hrid] using hs

/-- C10 witness: socket 0 joins room `"a"` then room `"b"` and
disconnects. Room `"a"` (where its membership entry is stale) is
untouched, and the only disconnect output is the `user-left` broadcast for
room `"b"`, received by socket 1 which sits in room `"a"` and in room
`"b"`'s audience is absent — here nobody subscribes to `"b"`, so nothing
is emitted at all while room `"a"` keeps socket 0's entry. -/
theorem c10_disconnect_frame_witness :
    lookupA (step (finalState [Event.connect 0,
        Event.joinRoom 0 (some "a") (some "u") (some "p"),
        Event.joinRoom 0 (some "b") (some "u") (some "p")])
      (Event.disconnect 0)).1.rooms "a"
      = some { users := [(0, { userId := some "u", peerId := some "p" })],
               mediaUrl := none, isPlaying := false, currentTime := some 0 } := by
  have h := c10_disconnect_frame
    (finalState [Event.connect 0,
      Event.joinRoom 0 (some "a") (some "u") (some "p"),
      Event.joinRoom 0 (some "b") (some "u") (some "p")])
    0
    { sdata := { roomId := some "b", userId := some "u", peerId := some "p" },
      joinedRooms := [some "a", some "b"] }
    (by decide)
  have h2 := (h.2 "b" (by decide)).1 "a" (by decide)
  rw [h2]
  decide

/-! ### C4: messages missing required fields -/

/-- C4 counterexample to the claim as stated: socket 0 joins room `"r"`
(position starts at `0`) and then sends `action{type: 'play'}` with no
`seconds` field. The message is not dropped: the room state is mutated,
its position becoming the missing value (`undefined`). -/
theorem c4_counterexample :
    lookupA (finalState [Event.connect 0,
        Event.joinRoom 0 (some "r") (some "a") (some "pa")]).rooms "r"
      = some { users := [(0, { userId := some "a", peerId := some "pa" })],
               mediaUrl := none, isPlaying := false, currentTime := some 0 } ∧
    lookupA (finalState [Event.connect 0,
        Event.joinRoom 0 (some "r") (some "a") (some "pa"),
        Event.action 0 (some "play") none none]).rooms "r"
      = some { users := [(0, { userId := some "a", peerId := some "pa" })],
               mediaUrl := none, isPlaying := true, currentTime := none } := by
  decide

/-- C4 amended: an inbound message missing a required field is processed,
not dropped. An `action` of kind `play` with no `seconds` payload, sent by
a member of an existing room, mutates the room: the playing flag is set
and the stored position becomes the missing (`undefined`) value, so the
room state genuinely changes whenever a position was previously stored. No
handler can crash the process (every handler is a total function of the
state). -/
theorem c4_missing_field_processed (st : ServerState) (sid : Nat)
    (sk : SocketState) (rid : String) (r : Room) (t : Nat)
    (url : Option String)
    (hsk : lookupA st.sockets sid = some sk)
    (hrid : sk.sdata.roomId = some rid) (hne : ¬ rid = "")
    (hroom : lookupA st.rooms rid = some r)
    (htime : r.currentTime = some t) :
    lookupA (step st (Event.action sid (some "play") none url)).1.rooms rid
      = some { r with isPlaying := true, currentTime := none } ∧
    ¬ (step st (Event.action sid (some "play") none url)).1.rooms
      = st.rooms := by
  have htru : truthy (some rid) = true := by simp [truthy, hne]
  have hkey : keyOf (some rid) = rid := rfl
  have hlook :
      lookupA (step st (Event.action sid (some "play") none url)).1.rooms rid
        = some { r with isPlaying := true, currentTime := none } := by
    simp [step, handleAction, hsk, hrid, htru, hkey, hroom, applyAction,
      lookupA_setA_self]
  refine ⟨hlook, ?_⟩
  intro heq
  rw [heq, hroom] at hlook
  have := (Option.some.injEq _ _).mp hlook
  have hct : r.currentTime = none := congrArg Room.currentTime this
  rw [htime] at hct
  exact Option.noConfusion hct

/-- C4 witness: in the one-member room `"r"` at position `0`, a
`play`-without-seconds action yields position `undefined` and a mutated
registry. -/
theorem c4_missing_field_processed_witness :
    lookupA (step (finalState [Event.connect 0,
        Event.joinRoom 0 (some "r") (some "a") (some "pa")])
      (Event.action 0 (some "play") none none)).1.rooms "r"
      = some { users := [(0, { userId := some "a", peerId := some "pa" })],
               mediaUrl := none, isPlaying := true, currentTime := none } := by
  have h := c4_missing_field_processed
    (finalState [Event.connect 0,
      Event.joinRoom 0 (some "r") (some "a") (some "pa")])
    0
    { sdata := { roomId := some "r", userId := some "a", peerId := some "pa" },
      joinedRooms := [some "r"] }
    "r"
    { users := [(0, { userId := some "a", peerId := some "pa" })],
      mediaUrl := none, isPlaying := false, currentTime := some 0 }
    0 none
    (by decide) (by decide) (by decide) (by decide) (by decide)
  exact h.1

/-! ### C2: sync fan-out after an action -/

theorem ioRoomMembers_nodup (st : ServerState) (rid : Option String)
    (h : (st.sockets.map (fun p => p.1)).Nodup) :
    (ioRoomMembers st rid).Nodup := by
  unfold ioRoomMembers
  exact List.Nodup.sublist
    ((List.filter_sublist st.sockets).map (fun p => p.1)) h

theorem countP_pair_map (l : List Nat) (m : OutMsg) (s : Nat)
    (hnd : l.Nodup) (hs : s ∈ l) :
    (l.map (fun x => (x, m))).countP (fun p => p = (s, m)) = 1 := by
  induction l with
  | nil => simp at hs
  | cons a rest ih =>
    rcases List.nodup_cons.mp hnd with ⟨hna, hnr⟩
    rw [List.map_cons, List.countP_cons]
    by_cases hsa : s = a
    · subst hsa
      have h0 : (rest.map (fun x => (x, m))).countP
          (fun p => p = (s, m)) = 0 := by
        rw [List.countP_eq_zero]
        intro q hq
        obtain ⟨x, hx, hxq⟩ := List.mem_map.mp hq
        subst hxq
        simp only [decide_eq_true_eq, Prod.mk.injEq]
        intro hxs
        exact hna (hxs.1 ▸ hx)
      simp [h0]
    · have hmem : s ∈ rest := by
        cases List.mem_cons.mp hs with
        | inl h => exact absurd h hsa
        | inr h => exact h
      have hne : ¬ ((a, m) = (s, m)) := by
        simp only [Prod.mk.injEq]
        intro h
        exact hsa h.1.symm
      simp [hne, ih hnr hmem]

/-- C2 counterexample to the claim as stated: with members `a` (socket 0)
and `b` (socket 1) in room `"r"`, `b`'s `play{seconds:10}` makes the
server emit `sync` messages whose payload is the whole room object — its
`users` field carries both membership entries — and not a payload
consisting of exactly the three playback fields. -/
theorem c2_counterexample :
    (step (finalState [Event.connect 0,
        Event.joinRoom 0 (some "r") (some "a") (some "pa"),
        Event.connect 1,
        Event.joinRoom 1 (some "r") (some "b") (some "pb")])
      (Event.action 1 (some "play") (some 10) none)).2
      = [(0, OutMsg.sync
            { users := [(0, { userId := some "a", peerId := some "pa" }),
                        (1, { userId := some "b", peerId := some "pb" })],
              mediaUrl := none, isPlaying := true, currentTime := some 10 }),
         (1, OutMsg.sync
            { users := [(0, { userId := some "a", peerId := some "pa" }),
                        (1, { userId := some "b", peerId := some "pb" })],
              mediaUrl := none, isPlaying := true, currentTime := some 10 })] := by
  decide

/-- C2 amended: after an `action` from a member of an existing room, the
room's registry entry becomes `applyAction` of the old state, every other
registry key is untouched, the socket table is untouched, and the output
is exactly one `sync` per subscriber of the room — in particular each
current member (the actor included, since members subscribe on join)
receives it exactly once. The `sync` payload is the whole updated room
object (its three playback fields are the authoritative snapshot, but the
membership map rides along). -/
theorem c2_action_sync_fanout (st : ServerState) (sid : Nat)
    (sk : SocketState) (rid : String) (r : Room) (ty : Option String)
    (seconds : Option Nat) (url : Option String)
    (hsk : lookupA st.sockets sid = some sk)
    (hrid : sk.sdata.roomId = some rid) (hne : ¬ rid = "")
    (hroom : lookupA st.rooms rid = some r)
    (hnodup : (st.sockets.map (fun p => p.1)).Nodup)
    (hmem : ∀ s ∈ r.users.map (fun p => p.1),
      s ∈ ioRoomMembers st (some rid)) :
    lookupA (step st (Event.action sid ty seconds url)).1.rooms rid
      = some (applyAction r ty seconds url) ∧
    (∀ k, ¬ k = rid →
      lookupA (step st (Event.action sid ty seconds url)).1.rooms k
        = lookupA st.rooms k) ∧
    (step st (Event.action sid ty seconds url)).1.sockets = st.sockets ∧
    (step st (Event.action sid ty seconds url)).2
      = (ioRoomMembers st (some rid)).map
          (fun s => (s, OutMsg.sync (applyAction r ty seconds url))) ∧
    (∀ s ∈ r.users.map (fun p => p.1),
      (step st (Event.action sid ty seconds url)).2.countP
          (fun p => p = (s, OutMsg.sync (applyAction r ty seconds url)))
        = 1) := by
  have htru : truthy (some rid) = true := by simp [truthy, hne]
  have hkey : keyOf (some rid) = rid := rfl
  have hout : (step st (Event.action sid ty seconds url)).2
      = (ioRoomMembers st (some rid)).map
          (fun s => (s, OutMsg.sync (applyAction r ty seconds url))) := by
    simp [step, handleAction, hsk, hrid, htru, hkey, hroom, ioRoomMembers]
  refine ⟨?_, ?_, ?_, hout, ?_⟩
  · simp [step, handleAction, hsk, hrid, htru, hkey, hroom, lookupA_setA_self]
  · intro k hk
    simp [step, handleAction, hsk, hrid, htru, hkey, hroom,
      lookupA_setA_ne _ _ _ _ hk]
  · simp [step, handleAction, hsk, hrid, htru, hkey, hroom]
  · intro s hs
    rw [hout]
    exact countP_pair_map _ _ _ (ioRoomMembers_nodup st (some rid) hnodup)
      (hmem s hs)

/-- C2 witness: in the two-member room of `c2_counterexample`, each of the
two members receives the `sync` for `b`'s `play{seconds:10}` exactly
once, and a foreign registry key is untouched. -/
theorem c2_action_sync_fanout_witness :
    (step (finalState [Event.connect 0,
        Event.joinRoom 0 (some "r") (some "a") (some "pa"),
        Event.connect 1,
        Event.joinRoom 1 (some "r") (some "b") (some "pb")])
      (Event.action 1 (some "play") (some 10) none)).2.countP
        (fun p => p = (0, OutMsg.sync
          { users := [(0, { userId := some "a", peerId := some "pa" }),
                      (1, { userId := some "b", peerId := some "pb" })],
            mediaUrl := none, isPlaying := true, currentTime := some 10 }))
        = 1 ∧
    (step (finalState [Event.connect 0,
        Event.joinRoom 0 (some "r") (some "a") (some "pa"),
        Event.connect 1,
        Event.joinRoom 1 (some "r") (some "b") (some "pb")])
      (Event.action 1 (some "play") (some 10) none)).2.countP
        (fun p => p = (1, OutMsg.sync
          { users := [(0, { userId := some "a", peerId := some "pa" }),
                      (1, { userId := some "b", peerId := some "pb" })],
            mediaUrl := none, isPlaying := true, currentTime := some 10 }))
        = 1 ∧
    lookupA (step (finalState [Event.connect 0,
        Event.joinRoom 0 (some "r") (some "a") (some "pa"),
        Event.connect 1,
        Event.joinRoom 1 (some "r") (some "b") (some "pb")])
      (Event.action 1 (some "play") (some 10) none)).1.rooms "other"
      = lookupA (finalState [Event.connect 0,
          Event.joinRoom 0 (some "r") (some "a") (some "pa"),
          Event.connect 1,
          Event.joinRoom 1 (some "r") (some "b") (some "pb")]).rooms "other" := by
  have h := c2_action_sync_fanout
    (finalState [Event.connect 0,
      Event.joinRoom 0 (some "r") (some "a") (some "pa"),
      Event.connect 1,
      Event.joinRoom 1 (some "r") (some "b") (some "pb")])
    1
    { sdata := { roomId := some "r", userId := some "b", peerId := some "pb" },
      joinedRooms := [some "r"] }
    "r"
    { users := [(0, { userId := some "a", peerId := some "pa" }),
                (1, { userId := some "b", peerId := some "pb" })],
      mediaUrl := none, isPlaying := false, currentTime := some 0 }
    (some "play") (some 10) none
    (by decide) (by decide) (by decide) (by decide) (by decide)
    (by decide)
  exact ⟨h.2.2.2.2 0 (by decide), h.2.2.2.2 1 (by decide),
    h.2.1 "other" (by decide)⟩

/-! ### C3: order of join effects -/

/-- C3 counterexample to the claim as stated: when `b` (socket 1) joins
room `"r"` already containing `a` (socket 0), the first emitted message is
the `user-joined` broadcast to the other member, and the deliveries to the
joiner (`room-state`, `existing-users`) come after it — not before, as
the claim orders them. -/
theorem c3_counterexample :
    (step (finalState [Event.connect 0,
        Event.joinRoom 0 (some "r") (some "a") (some "pa"),
        Event.connect 1])
      (Event.joinRoom 1 (some "r") (some "b") (some "pb"))).2
      = [(0, OutMsg.userJoined (some "b") (some "pb")),
         (1, OutMsg.roomState
            { users := [(0, { userId := some "a", peerId := some "pa" }),
                        (1, { userId := some "b", peerId := some "pb" })],
              mediaUrl := none, isPlaying := false, currentTime := some 0 }),
         (1, OutMsg.existingUsers
            [{ userId := some "a", peerId := some "pa" },
             { userId := some "b", peerId := some "pb" }])] := by
  decide

/-- C3 amended: the `connected → joined` transition performs, in order:
(a) the member is added to the room registry; (b) `user-joined` is
broadcast to all other current members; (c) the joiner is sent the room
snapshot and the member list — both computed after the addition, so they
already contain the joiner. -/
theorem c3_join_effect_order (st : ServerState) (sid : Nat)
    (sk : SocketState) (rid uid pid : Option String)
    (hsk : lookupA st.sockets sid = some sk) :
    ∃ r1 : Room,
      lookupA (step st (Event.joinRoom sid rid uid pid)).1.rooms (keyOf rid)
        = some r1 ∧
      lookupA r1.users sid = some { userId := uid, peerId := pid } ∧
      (step st (Event.joinRoom sid rid uid pid)).2
        = (socketToMembers (step st (Event.joinRoom sid rid uid pid)).1
              rid sid).map (fun s => (s, OutMsg.userJoined uid pid))
          ++ [(sid, OutMsg.roomState r1),
              (sid, OutMsg.existingUsers (r1.users.map (fun p => p.2)))] := by
  refine ⟨{ (lookupA st.rooms (keyOf rid)).getD freshRoom with
      users := setA ((lookupA st.rooms (keyOf rid)).getD freshRoom).users sid
        { userId := uid, peerId := pid } }, ?_, ?_, ?_⟩
  · simp [step, handleJoin, hsk, lookupA_setA_self]
  · exact lookupA_setA_self _ _ _
  · simp [step, handleJoin, hsk]

/-- C3 witness: socket 1 joins room `"r"` next to socket 0; the output is
the `user-joined` broadcast to the socket.io room followed by the two
joiner deliveries, and the delivered snapshot contains the joiner. -/
theorem c3_join_effect_order_witness :
    (step (finalState [Event.connect 0,
        Event.joinRoom 0 (some "r") (some "a") (some "pa"),
        Event.connect 1])
      (Event.joinRoom 1 (some "r") (some "b") (some "pb"))).2
      = (socketToMembers (step (finalState [Event.connect 0,
            Event.joinRoom 0 (some "r") (some "a") (some "pa"),
            Event.connect 1])
          (Event.joinRoom 1 (some "r") (some "b") (some "pb"))).1
          (some "r") 1).map
          (fun s => (s, OutMsg.userJoined (some "b") (some "pb")))
        ++ [(1, OutMsg.roomState
              { users := [(0, { userId := some "a", peerId := some "pa" }),
                          (1, { userId := some "b", peerId := some "pb" })],
                mediaUrl := none, isPlaying := false, currentTime := some 0 }),
            (1, OutMsg.existingUsers
              [{ userId := some "a", peerId := some "pa" },
               { userId := some "b", peerId := some "pb" }])] := by
  obtain ⟨r1, h1, h2, h3⟩ := c3_join_effect_order
    (finalState [Event.connect 0,
      Event.joinRoom 0 (some "r") (some "a") (some "pa"),
      Event.connect 1])
    1
    { sdata := { roomId := none, userId := none, peerId := none },
      joinedRooms := [] }
    (some "r") (some "b") (some "pb") (by decide)
  have hx : lookupA (step (finalState [Event.connect 0,
      Event.joinRoom 0 (some "r") (some "a") (some "pa"),
      Event.connect 1])
      (Event.joinRoom 1 (some "r") (some "b") (some "pb"))).1.rooms
      (keyOf (some "r"))
      = some { users := [(0, { userId := some "a", peerId := some "pa" }),
                         (1, { userId := some "b", peerId := some "pb" })],
               mediaUrl := none, isPlaying := false,
               currentTime := some 0 } := by decide
  rw [h1] at hx
  have hr := Option.some.inj hx
  subst hr
  rw [h3]
  rfl

/-! ### C6: room lifecycle invariant -/

/-- Every registered room has at least one member. -/
def roomsInhabited (st : ServerState) : Prop :=
  ∀ k r, lookupA st.rooms k = some r → r.users ≠ []

theorem step_roomsInhabited (st : ServerState) (e : Event)
    (hinv : roomsInhabited st) : roomsInhabited (step st e).1 := by
  cases e with
  | connect sid =>
    intro k r hk
    by_cases h : (lookupA st.sockets sid).isSome
    · simp [step, h] at hk
      exact hinv k r hk
    · simp [step, h, handleConnect] at hk
      exact hinv k r hk
  | joinRoom sid rid uid pid =>
    intro k r hk
    cases hsk : lookupA st.sockets sid with
    | none =>
      simp [step, handleJoin, hsk] at hk
      exact hinv k r hk
    | some sk =>
      simp only [step, handleJoin, hsk] at hk
      by_cases hkey : k = keyOf rid
      · subst hkey
        rw [lookupA_setA_self] at hk
        cases hk
        exact setA_ne_nil _ _ _
      · rw [lookupA_setA_ne _ _ _ _ hkey] at hk
        exact hinv k r hk
  | action sid ty seconds url =>
    intro k r hk
    cases hsk : lookupA st.sockets sid with
    | none =>
      simp [step, handleAction, hsk] at hk
      exact hinv k r hk
    | some sk =>
      by_cases htru : truthy sk.sdata.roomId
      · cases hroom : lookupA st.rooms (keyOf sk.sdata.roomId) with
        | none =>
          simp [step, handleAction, hsk, htru, hroom] at hk
          exact hinv k r hk
        | some r0 =>
          simp only [step, handleAction, hsk, htru, if_true, hroom] at hk
          by_cases hkey : k = keyOf sk.sdata.roomId
          · subst hkey
            rw [lookupA_setA_self] at hk
            cases hk
            rw [applyAction_users]
            exact hinv _ r0 hroom
          · rw [lookupA_setA_ne _ _ _ _ hkey] at hk
            exact hinv k r hk
      · simp [step, handleAction, hsk, htru] at hk
        exact hinv k r hk
  | signal sid tpid payload =>
    intro k r hk
    cases hsk : lookupA st.sockets sid with
    | none =>
      simp [step, handleSignal, hsk] at hk
      exact hinv k r hk
    | some sk =>
      cases hfind : findSocketByPeerId st.sockets tpid with
      | none =>
        simp [step, handleSignal, hsk, hfind] at hk
        exact hinv k r hk
      | some t =>
        simp [step, handleSignal, hsk, hfind] at hk
        exact hinv k r hk
  | disconnect sid =>
    intro k r hk
    cases hsk : lookupA st.sockets sid with
    | none =>
      simp [step, handleDisconnect, hsk] at hk
      exact hinv k r hk
    | some sk =>
      by_cases htru : truthy sk.sdata.roomId
      · cases hroom : lookupA st.rooms (keyOf sk.sdata.roomId) with
        | none =>
          simp [step, handleDisconnect, hsk, htru, hroom] at hk
          exact hinv k r hk
        | some r0 =>
          by_cases hemp : ({ r0 with users := eraseA r0.users sid } :
              Room).users.isEmpty
          · simp only [step, handleDisconnect, hsk, htru, if_true, hroom,
              hemp] at hk
            by_cases hkey : k = keyOf sk.sdata.roomId
            · subst hkey
              rw [lookupA_eraseA_self] at hk
              exact Option.noConfusion hk
            · rw [lookupA_eraseA_ne _ _ _ hkey] at hk
              exact hinv k r hk
          · simp [step, handleDisconnect, hsk, htru, hroom, hemp] at hk
            by_cases hkey : k = keyOf sk.sdata.roomId
            · subst hkey
              rw [lookupA_setA_self] at hk
              cases hk
              simpa using hemp
            · rw [lookupA_setA_ne _ _ _ _ hkey] at hk
              exact hinv k r hk
      · simp [step, handleDisconnect, hsk, htru] at hk
        exact hinv k r hk

theorem runTrace_roomsInhabited (evs : List Event) (st : ServerState)
    (hinv : roomsInhabited st) : roomsInhabited (runTrace st evs).1 := by
  induction evs generalizing st with
  | nil => exact hinv
  | cons e rest ih =>
    simpa [runTrace] using ih (step st e).1 (step_roomsInhabited st e hinv)

/-- C6: in every reachable state, every room present in the registry has a
nonempty member map (so a room is present iff its member count is
positive); disconnecting a room's sole member makes the registry key
vanish in the very same step; and a `join-room` on an identifier absent
from the registry initializes it freshly — media reference absent,
`playing = false`, `position = 0`, membership holding exactly the new
joiner (the creation starts from an empty-membership room, never from
stale state). -/
theorem c6_room_lifecycle (evs : List Event) :
    roomsInhabited (finalState evs) ∧
    (∀ sid sk rid info,
      lookupA (finalState evs).sockets sid = some sk →
      sk.sdata.roomId = some rid → ¬ rid = "" →
      ∀ r, lookupA (finalState evs).rooms rid = some r →
        r.users = [(sid, info)] →
        lookupA (step (finalState evs) (Event.disconnect sid)).1.rooms rid
          = none) ∧
    (∀ sid sk rid uid pid,
      lookupA (finalState evs).sockets sid = some sk →
      lookupA (finalState evs).rooms (keyOf rid) = none →
      lookupA (step (finalState evs)
          (Event.joinRoom sid rid uid pid)).1.rooms (keyOf rid)
        = some { users := [(sid, { userId := uid, peerId := pid })],
                 mediaUrl := none, isPlaying := false,
                 currentTime := some 0 }) := by
  refine ⟨runTrace_roomsInhabited evs initState (fun k r hk => by
      simp [initState, lookupA] at hk), ?_, ?_⟩
  · intro sid sk rid info hsk hrid hne r hroom husers
    have htru : truthy sk.sdata.roomId = true := by simp [truthy, hrid, hne]
    have hkey : keyOf sk.sdata.roomId = rid := by simp [keyOf, hrid]
    have hemp : (eraseA r.users sid).isEmpty := by simp [husers, eraseA]
    simp [step, handleDisconnect, hsk, htru, hkey, hroom, hemp,
      lookupA_eraseA_self]
  · intro sid sk rid uid pid hsk hroom
    simp [step, handleJoin, hsk, hroom, freshRoom, setA, lookupA,
      lookupA_setA_self]
    rw [lookupA_append]
    simp [hroom, lookupA]

/-- C6 witness: socket 0 is the sole member of room `"r"`; its disconnect
removes the key, and a join on the absent identifier `"q"` initializes a
fresh room holding only the joiner. -/
theorem c6_room_lifecycle_witness :
    lookupA (step (finalState [Event.connect 0,
        Event.joinRoom 0 (some "r") (some "a") (some "pa")])
      (Event.disconnect 0)).1.rooms "r" = none ∧
    lookupA (step (finalState [Event.connect 0,
        Event.joinRoom 0 (some "r") (some "a") (some "pa")])
      (Event.joinRoom 0 (some "q") (some "a") (some "pa"))).1.rooms "q"
      = some { users := [(0, { userId := some "a", peerId := some "pa" })],
               mediaUrl := none, isPlaying := false,
               currentTime := some 0 } := by
  have h := c6_room_lifecycle [Event.connect 0,
    Event.joinRoom 0 (some "r") (some "a") (some "pa")]
  constructor
  · exact h.2.1 0
      { sdata := { roomId := some "r", userId := some "a",
                   peerId := some "pa" },
        joinedRooms := [some "r"] }
      "r" { userId := some "a", peerId := some "pa" }
      (by decide) (by decide) (by decide)
      { users := [(0, { userId := some "a", peerId := some "pa" })],
        mediaUrl := none, isPlaying := false, currentTime := some 0 }
      (by decide) (by decide)
  · exact h.2.2 0
      { sdata := { roomId := some "r", userId := some "a",
                   peerId := some "pa" },
        joinedRooms := [some "r"] }
      (some "q") (some "a") (some "pa")
      (by decide) (by decide)

/-! ### C1: the Nth joiner's existing-users list -/

/-- The identity supplied by the i-th scripted joiner. -/
def traceUser (i : Nat) : UserInfo :=
  { userId := some (toString i), peerId := some (toString i) }

/-- The i-th scripted socket after it joined `rid`. -/
def traceSocket (rid : String) (i : Nat) : SocketState :=
  { sdata := { roomId := some rid, userId := some (toString i),
               peerId := some (toString i) },
    joinedRooms := [some rid] }

/-- The scripted room after its first n joiners. -/
def traceRoom (n : Nat) : Room :=
  { users := (List.range n).map (fun i => (i, traceUser i)),
    mediaUrl := none, isPlaying := false, currentTime := some 0 }

/-- n scripted joiners on the fresh identifier `rid`: socket i connects
and joins with user and peer identifier `toString i`. -/
def joinEvents (rid : String) : Nat → List Event
  | 0 => []
  | n+1 => joinEvents rid n ++
      [Event.connect n,
       Event.joinRoom n (some rid) (some (toString n)) (some (toString n))]

theorem runTrace_append_fst (st : ServerState) (l₁ l₂ : List Event) :
    (runTrace st (l₁ ++ l₂)).1 = (runTrace (runTrace st l₁).1 l₂).1 := by
  induction l₁ generalizing st with
  | nil => simp [runTrace]
  | cons e rest ih => simp [runTrace, ih]

theorem replaceA_append_last {κ α : Type} [DecidableEq κ]
    (l : List (κ × α)) (k : κ) (v v' : α) (h : lookupA l k = none) :
    replaceA (l ++ [(k, v)]) k v' = l ++ [(k, v')] := by
  induction l with
  | nil => simp [replaceA]
  | cons p rest ih =>
    obtain ⟨k₁, v₁⟩ := p
    have hk : ¬ k = k₁ := by
      intro he
      simp [lookupA, he] at h
    have hk1 : ¬ k₁ = k := fun he => hk he.symm
    simp only [lookupA, if_neg hk] at h
    simp [replaceA, hk1, ih h]

theorem lookupA_traceSockets (rid : String) (n k : Nat) :
    lookupA ((List.range n).map (fun i => (i, traceSocket rid i))) k
      = if k < n then some (traceSocket rid k) else none :=
  lookupA_range_map n k (traceSocket rid)

/-- Closed form of the server state after the first n scripted joiners. -/
theorem joinEvents_state (rid : String) (n : Nat) :
    finalState (joinEvents rid n)
      = { rooms := if n = 0 then [] else [(rid, traceRoom n)],
          sockets :=
            (List.range n).map (fun i => (i, traceSocket rid i)) } := by
  induction n with
  | zero => rfl
  | succ n ih =>
    have hsplit : finalState (joinEvents rid (n+1))
        = (runTrace (finalState (joinEvents rid n))
            [Event.connect n,
             Event.joinRoom n (some rid) (some (toString n))
               (some (toString n))]).1 := by
      unfold finalState
      rw [joinEvents, runTrace_append_fst]
    have h0 : lookupA ((List.range n).map (fun i => (i, traceSocket rid i)))
        n = none := by
      rw [lookupA_traceSockets]
      simp
    have h1 : lookupA
        ((List.range n).map (fun i => (i, traceSocket rid i)) ++
          [(n, { sdata := { roomId := none, userId := none, peerId := none },
                 joinedRooms := [] })]) n
        = some { sdata := { roomId := none, userId := none, peerId := none },
                 joinedRooms := ([] : List (Option String)) } := by
      rw [lookupA_append, h0]
      simp [lookupA]
    have hr0 : (lookupA
        (if n = 0 then ([] : List (String × Room)) else [(rid, traceRoom n)])
        (keyOf (some rid))).getD freshRoom = traceRoom n := by
      by_cases hn : n = 0
      · subst hn
        simp [lookupA, freshRoom, traceRoom]
      · simp [hn, lookupA, keyOf]
    have husers : setA (traceRoom n).users n
        { userId := some (toString n), peerId := some (toString n) }
        = (List.range (n+1)).map (fun i => (i, traceUser i)) := by
      unfold setA traceRoom
      rw [lookupA_range_map]
      simp [List.range_succ, traceUser]
    have hRR : Room.mk ((List.range (n+1)).map (fun i => (i, traceUser i)))
        (traceRoom n).mediaUrl (traceRoom n).isPlaying
        (traceRoom n).currentTime
        = traceRoom (n+1) := by
      simp [traceRoom]
    have hrooms : setA
        (if n = 0 then ([] : List (String × Room)) else [(rid, traceRoom n)])
        (keyOf (some rid))
        (Room.mk ((List.range (n+1)).map (fun i => (i, traceUser i)))
          (traceRoom n).mediaUrl (traceRoom n).isPlaying
          (traceRoom n).currentTime)
        = [(rid, traceRoom (n+1))] := by
      rw [hRR]
      by_cases hn : n = 0
      · subst hn
        simp [setA, lookupA, keyOf]
      · simp [hn, setA, lookupA, keyOf, replaceA]
    have hsock : setA
        ((List.range n).map (fun i => (i, traceSocket rid i)) ++
          [(n, { sdata := { roomId := none, userId := none, peerId := none },
                 joinedRooms := [] })]) n
        { sdata := { roomId := some rid, userId := some (toString n),
                     peerId := some (toString n) },
          joinedRooms := [some rid] }
        = (List.range (n+1)).map (fun i => (i, traceSocket rid i)) := by
      unfold setA
      rw [h1]
      simp only [Option.isSome_some, if_true]
      rw [replaceA_append_last _ _ _ _ h0]
      simp [List.range_succ, traceSocket]
    rw [hsplit, ih]
    simp only [runTrace, step, h0, Option.isSome_none, Bool.false_eq_true,
      if_false, handleConnect, handleJoin, h1]
    simp only [List.any_nil, Bool.false_eq_true, if_false, List.nil_append,
      hr0, husers]
    rw [hrooms, hsock]
    simp

/-- C1 counterexample to the claim as stated: the very first joiner of the
fresh room `"r"` receives an `existing-users` list with one entry — the
joiner itself — where the claim requires `N-1 = 0` entries, joiner
excluded: the member is added to the room before the list is computed. -/
theorem c1_counterexample :
    existingUsersTo (runTrace initState (joinEvents "r" 1)).2 0
      = [[{ userId := some "0", peerId := some "0" }]] := by
  decide

theorem existingUsersTo_append (o1 o2 : List (Nat × OutMsg)) (sid : Nat) :
    existingUsersTo (o1 ++ o2) sid
      = existingUsersTo o1 sid ++ existingUsersTo o2 sid := by
  simp [existingUsersTo, List.filterMap_append]

theorem existingUsersTo_userJoined (l : List Nat) (uid pid : Option String)
    (sid : Nat) :
    existingUsersTo (l.map (fun s => (s, OutMsg.userJoined uid pid))) sid
      = [] := by
  induction l with
  | nil => rfl
  | cons a rest ih =>
    simp only [List.map_cons, existingUsersTo, List.filterMap_cons] at ih ⊢
    by_cases h : a = sid
    · simp [h, ih]
    · simp [h, ih]

/-- C1 amended: for every n, the (n+1)-st joiner of the scripted join
sequence on a fresh room identifier receives exactly one `existing-users`
message, and its list has exactly n+1 entries: the n previously present
members followed by the joiner itself (the handler adds the member before
computing the list, so the joiner is included and the count is N, not
N-1). -/
theorem c1_nth_joiner_existing_users (rid : String) (n : Nat) :
    existingUsersTo
        (step (step (finalState (joinEvents rid n)) (Event.connect n)).1
          (Event.joinRoom n (some rid) (some (toString n))
            (some (toString n)))).2 n
      = [(List.range (n+1)).map traceUser] ∧
    ((List.range (n+1)).map traceUser).length = n + 1 ∧
    traceUser n ∈ (List.range (n+1)).map traceUser := by
  refine ⟨?_, by simp, List.mem_map_of_mem traceUser
    (List.mem_range.mpr (Nat.lt_succ_self n))⟩
  rw [joinEvents_state]
  have h0 : lookupA ((List.range n).map (fun i => (i, traceSocket rid i)))
      n = none := by
    rw [lookupA_traceSockets]
    simp
  have h1 : lookupA
      ((List.range n).map (fun i => (i, traceSocket rid i)) ++
        [(n, { sdata := { roomId := none, userId := none, peerId := none },
               joinedRooms := [] })]) n
      = some { sdata := { roomId := none, userId := none, peerId := none },
               joinedRooms := ([] : List (Option String)) } := by
    rw [lookupA_append, h0]
    simp [lookupA]
  have hr0 : (lookupA
      (if n = 0 then ([] : List (String × Room)) else [(rid, traceRoom n)])
      (keyOf (some rid))).getD freshRoom = traceRoom n := by
    by_cases hn : n = 0
    · subst hn
      simp [lookupA, freshRoom, traceRoom]
    · simp [hn, lookupA, keyOf]
  have husers : setA (traceRoom n).users n
      { userId := some (toString n), peerId := some (toString n) }
      = (List.range (n+1)).map (fun i => (i, traceUser i)) := by
    unfold setA traceRoom
    rw [lookupA_range_map]
    simp [List.range_succ, traceUser]
  simp only [step, h0, Option.isSome_none, Bool.false_eq_true, if_false,
    handleConnect, handleJoin, h1]
  simp only [List.any_nil, Bool.false_eq_true, if_false, List.nil_append,
    hr0, husers]
  rw [existingUsersTo_append, existingUsersTo_userJoined]
  simp [existingUsersTo, List.filterMap_cons, List.map_map, Function.comp]

end SyncStream
